import Mathlib

/-!
Verification of the geoh5 object-graph layer: shallow embedding of the
workspace tree, `Data` value/association handling, EM-survey component
binding and metadata edition, the Ground-TEM paired copy renumbering,
and the `GeoImage` vertices accessors, together with theorems settling
the specification claims about them.

Machine integers in the sources are plain Python ints; they are embedded
as `Nat`/`Int`.  Python dicts keyed by strings are embedded as
insertion-ordered association lists, numpy arrays as `List`s, and raised
exceptions as `Except`/`Option` results.
-/

namespace Geoh5

/-! ## Workspace tree and `Entity.set_parent` (src/geoh5io/shared/entity.py)

The workspace tree maps each uid to a dict `{"parent": uid, "children": [uid]}`.
We embed uids as `Nat` and the tree as a total function from uid to node
(absent uids simply map to an irrelevant default; `set_parent` only touches
the uids it indexes). -/

structure TreeNode where
  parent : Nat
  children : List Nat
  deriving DecidableEq

def Tree : Type := Nat → TreeNode

/-- `Entity.set_parent` (entity.py lines 65-83), after parent-uid resolution:
sets `tree[self.uid]["parent"] = uid`, then appends `self.uid` to
`tree[uid]["children"]` when not already present.  No other tree entry is
touched. -/
def set_parent (tree : Tree) (euid puid : Nat) : Tree :=
  let t1 : Tree := fun k =>
    if k = euid then { tree euid with parent := puid } else tree k
  if euid ∈ (t1 puid).children then t1
  else fun k =>
    if k = puid then { t1 puid with children := (t1 puid).children ++ [euid] }
    else t1 k

/-- A concrete workspace tree: root 1; parents 2 and 3 under the root;
entity 10 under parent 2, with symmetric child links. -/
def exampleTree : Tree := fun k =>
  if k = 1 then ⟨1, [2, 3]⟩
  else if k = 2 then ⟨1, [10]⟩
  else if k = 3 then ⟨1, []⟩
  else if k = 10 then ⟨2, []⟩
  else ⟨0, []⟩

theorem set_parent_parent (tree : Tree) (euid puid : Nat) :
    (set_parent tree euid puid euid).parent = puid := by
  by_cases hpe : puid = euid
  · subst hpe
    by_cases h : puid ∈ (tree puid).children <;> simp [set_parent, h]
  · by_cases h : euid ∈ (tree puid).children <;> simp [set_parent, hpe, Ne.symm hpe, h]

theorem set_parent_child_mem (tree : Tree) (euid puid : Nat) :
    euid ∈ (set_parent tree euid puid puid).children := by
  by_cases hpe : puid = euid
  · subst hpe
    by_cases h : puid ∈ (tree puid).children <;> simp [set_parent, h]
  · by_cases h : euid ∈ (tree puid).children <;> simp [set_parent, hpe, Ne.symm hpe, h]

theorem set_parent_other_children (tree : Tree) (euid puid q : Nat) (hq : q ≠ puid) :
    (set_parent tree euid puid q).children = (tree q).children := by
  by_cases hpe : puid = euid
  · subst hpe
    by_cases h : puid ∈ (tree puid).children <;> simp [set_parent, h, hq]
  · by_cases h : euid ∈ (tree puid).children <;> by_cases hqe : q = euid <;>
      simp [set_parent, hpe, Ne.symm hpe, h, hq, hqe]

/-- C1: the claim, as stated, is false on the code: `set_parent` never
removes the entity's uid from the prior parent's child list.  Concretely,
in `exampleTree` entity 10 starts under parent 2; after
`set_parent _ 10 3` its uid appears in the children lists of both 2 and 3
(two distinct parents), and the symmetry property fails at parent 2:
`10 ∈ tree[2].children` while `tree[10].parent = 3 ≠ 2`. -/
theorem C1_set_parent_counterexample :
    10 ∈ (set_parent exampleTree 10 3 2).children ∧
    10 ∈ (set_parent exampleTree 10 3 3).children ∧
    (set_parent exampleTree 10 3 10).parent = 3 ∧
    (set_parent exampleTree 10 3 10).parent ≠ 2 ∧ (2 : Nat) ≠ 3 := by
  decide

/-- C1 (amended): after `set_parent(e, p)` the tree records `p` as `e`'s
parent and `e.uid` is a member of `p`'s children list; but the move leaves
every other children list — including the prior parent's — unchanged, so
an entity moved between parents appears in both parents' children lists
and the two-sided symmetry invariant does not hold. -/
theorem C1_set_parent_amended (tree : Tree) (euid puid q : Nat) (hq : q ≠ puid) :
    (set_parent tree euid puid euid).parent = puid ∧
    euid ∈ (set_parent tree euid puid puid).children ∧
    (set_parent tree euid puid q).children = (tree q).children :=
  ⟨set_parent_parent tree euid puid, set_parent_child_mem tree euid puid,
   set_parent_other_children tree euid puid q hq⟩

/-- Witness for the amended C1 theorem at the concrete `exampleTree`. -/
theorem C1_set_parent_amended_witness :
    (2 : Nat) ≠ 3 ∧
    ((set_parent exampleTree 10 3 10).parent = 3 ∧
     10 ∈ (set_parent exampleTree 10 3 3).children ∧
     (set_parent exampleTree 10 3 2).children = (exampleTree 2).children) :=
  ⟨by decide, C1_set_parent_amended exampleTree 10 3 2 (by decide)⟩

/-! ## `Data` values, association and construction (src/geoh5py/data/data.py)

`Data` holds an optional cached value array (`_values`), an optional
association, an `on_file` flag, and lives under a parent object carrying
vertex/cell/face counts.  The workspace store is embedded as an optional
stored array so that (non-)interaction with the store can be stated. -/

inductive DataAssociationEnum where
  | UNKNOWN
  | OBJECT
  | CELL
  | VERTEX
  | FACE
  | GROUP
  deriving DecidableEq

structure ParentObject where
  n_vertices : Nat
  n_cells : Nat
  n_faces : Nat
  deriving DecidableEq

/-- `Data.n_values` (data.py lines 56-71): dispatch on the association;
falls through to `None` when the association is unset or any other member. -/
def n_values (assoc : Option DataAssociationEnum) (parent : ParentObject) : Option Nat :=
  match assoc with
  | some DataAssociationEnum.VERTEX => some parent.n_vertices
  | some DataAssociationEnum.CELL => some parent.n_cells
  | some DataAssociationEnum.FACE => some parent.n_faces
  | some DataAssociationEnum.OBJECT => some 1
  | _ => none

structure DataState where
  association : Option DataAssociationEnum
  parent : ParentObject
  cached : Option (List Int)
  on_file : Bool
  stored : Option (List Int)
  deriving DecidableEq

/-- `Data.values` getter as written in the source (data.py lines 73-78):
`return self._values` — it returns the cached array unconditionally. -/
def values_getter (d : DataState) : Option (List Int) := d.cached

/-- `Workspace.fetch_array_attribute` restricted to a data entity's values:
reads the store's array for that entity. -/
def fetch_array_attribute (d : DataState) : Option (List Int) := d.stored

/-- `Data.association` setter (data.py lines 92-106) for an already-typed
enum argument (the string branch merely resolves the uppercased name to the
same enum member): it assigns `_association` without revalidating or
invalidating any cached values. -/
def association_setter (d : DataState) (value : DataAssociationEnum) : DataState :=
  { d with association := some value }

/-- Modelled from the spec: the `Data.values` setter is absent from the
sources (data.py declares only the getter); per the spec it validates the
array length against the association-derived expected length `n_values`,
caches the array, requests a store update (`update_attribute`, embedded as
writing the stored field), and sets `on_file`; a length mismatch raises
`ShapeMismatch`.  When no expected length is derivable the spec imposes no
check. -/
def values_setter (d : DataState) (vals : List Int) : Except String DataState :=
  match n_values d.association d.parent with
  | some n =>
      if vals.length = n then
        Except.ok { d with cached := some vals, stored := some vals, on_file := true }
      else
        Except.error "ShapeMismatch"
  | none => Except.ok { d with cached := some vals, stored := some vals, on_file := true }

/-- A data entity whose array is on file but not yet cached in memory. -/
def onFileUncached : DataState :=
  { association := some DataAssociationEnum.VERTEX, parent := ⟨2, 0, 0⟩,
    cached := none, on_file := true, stored := some [4, 7] }

/-- C3: counterexample.  For a `Data` with `on_file = true`, an empty
in-memory cache and a non-null stored array, the getter returns null: it
performs no lazy fetch, contradicting the claim that it "does not return
null but materializes the stored array". -/
theorem C3_values_getter_counterexample :
    onFileUncached.on_file = true ∧ onFileUncached.cached = none ∧
    fetch_array_attribute onFileUncached = some [4, 7] ∧
    values_getter onFileUncached = none := by
  decide

/-- C3 (amended): the `values` getter returns the in-memory cache
unconditionally — the cached array when one is cached and null otherwise —
and never consults `on_file` or the store (its result is unchanged if the
entity is marked off-file and the store emptied). -/
theorem C3_values_getter_amended (d : DataState) :
    values_getter d = d.cached ∧
    values_getter d = values_getter { d with on_file := false, stored := none } :=
  ⟨rfl, rfl⟩

/-- A data entity with association VERTEX on a parent with 4 vertices. -/
def vertexData4 : DataState :=
  { association := some DataAssociationEnum.VERTEX, parent := ⟨4, 0, 0⟩,
    cached := none, on_file := false, stored := none }

/-- C6: when the association-derived expected length is `n`, assigning an
array of a different length raises `ShapeMismatch` and (the setter being a
pure rejection) leaves the entity unchanged, while assigning an array of
length `n` caches the value, pushes it to the store and sets `on_file`. -/
theorem C6_values_setter_spec (d : DataState) (vals : List Int) (n : Nat)
    (hn : n_values d.association d.parent = some n) :
    (vals.length ≠ n → values_setter d vals = Except.error "ShapeMismatch") ∧
    (vals.length = n →
      values_setter d vals =
        Except.ok { d with cached := some vals, stored := some vals, on_file := true }) := by
  unfold values_setter
  rw [hn]
  constructor
  · intro h
    simp [h]
  · intro h
    simp [h]

/-- Witness for C6 on the spec scenario: association VERTEX, parent with 4
vertices; a length-4 array is accepted, a length-3 array raises. -/
theorem C6_values_setter_spec_witness :
    n_values vertexData4.association vertexData4.parent = some 4 ∧
    values_setter vertexData4 [1, 2, 3, 4] =
      Except.ok { vertexData4 with
                  cached := some [1, 2, 3, 4]
                  stored := some [1, 2, 3, 4]
                  on_file := true } ∧
    values_setter vertexData4 [9, 9, 9] = Except.error "ShapeMismatch" :=
  ⟨by decide,
   (C6_values_setter_spec vertexData4 [1, 2, 3, 4] 4 (by decide)).2 (by decide),
   (C6_values_setter_spec vertexData4 [9, 9, 9] 4 (by decide)).1 (by decide)⟩

/-- A data entity with association VERTEX on a parent with 4 vertices and
2 cells, used to exhibit a stale-association state. -/
def vertexCellData : DataState :=
  { association := some DataAssociationEnum.VERTEX, parent := ⟨4, 2, 0⟩,
    cached := none, on_file := false, stored := none }

/-- The state after a valid length-4 VERTEX write on `vertexCellData`. -/
def preStaleData : DataState :=
  { vertexCellData with
    cached := some [1, 2, 3, 4]
    stored := some [1, 2, 3, 4]
    on_file := true }

/-- The state after subsequently flipping the association to CELL. -/
def staleAssociationData : DataState :=
  association_setter preStaleData DataAssociationEnum.CELL

/-- C8: counterexample.  The association setter performs no invalidation or
re-check, so a reachable state has both `values` and `n_values` known with
`len(values) ≠ n_values`: write a valid length-4 VERTEX array, then set the
association to CELL on a parent with 2 cells. -/
theorem C8_n_values_counterexample :
    values_setter vertexCellData [1, 2, 3, 4] = Except.ok preStaleData ∧
    staleAssociationData = association_setter preStaleData DataAssociationEnum.CELL ∧
    values_getter staleAssociationData = some [1, 2, 3, 4] ∧
    n_values staleAssociationData.association staleAssociationData.parent = some 2 ∧
    ([1, 2, 3, 4] : List Int).length ≠ 2 := by
  refine ⟨rfl, rfl, rfl, rfl, by decide⟩

/-- C8 (amended): `n_values` follows the claimed case analysis (vertex
count for VERTEX, cell count for CELL, face count for FACE, 1 for OBJECT,
null when unset), and every successful values write re-establishes
`len(values) = n_values`; the invariant holds at every write but can be
broken afterwards by re-assigning the association, which neither
invalidates nor re-checks the cached values. -/
theorem C8_n_values_amended (p : ParentObject) (d d' : DataState) (vals : List Int)
    (hset : values_setter d vals = Except.ok d')
    (hknown : n_values d.association d.parent ≠ none) :
    n_values (some DataAssociationEnum.VERTEX) p = some p.n_vertices ∧
    n_values (some DataAssociationEnum.CELL) p = some p.n_cells ∧
    n_values (some DataAssociationEnum.FACE) p = some p.n_faces ∧
    n_values (some DataAssociationEnum.OBJECT) p = some 1 ∧
    n_values none p = none ∧
    (∀ w, values_getter d' = some w →
      some w.length = n_values d'.association d'.parent) := by
  refine ⟨rfl, rfl, rfl, rfl, rfl, ?_⟩
  intro w hw
  unfold values_setter at hset
  split at hset
  · rename_i n heq
    split at hset
    · rename_i hl
      cases hset
      simp only [values_getter, Option.some.injEq] at hw
      subst hw
      simp [heq, hl]
    · exact Except.noConfusion hset
  · rename_i heq
    exact absurd heq hknown

/-- Witness for the amended C8 theorem on a concrete VERTEX write. -/
theorem C8_n_values_amended_witness :
    values_setter vertexCellData [1, 2, 3, 4] = Except.ok preStaleData ∧
    n_values vertexCellData.association vertexCellData.parent ≠ none ∧
    (∀ w, values_getter preStaleData = some w →
      some w.length = n_values preStaleData.association preStaleData.parent) :=
  ⟨rfl, by decide,
   (C8_n_values_amended ⟨0, 0, 0⟩ vertexCellData preStaleData [1, 2, 3, 4]
      rfl (by decide)).2.2.2.2.2⟩

/-! ## `Data.__init__` and primitive-type agreement (data.py lines 37-54) -/

inductive PrimitiveTypeEnum where
  | INVALID
  | INTEGER
  | FLOAT
  | REFERENCED
  | TEXT
  | FILENAME
  | BOOLEAN
  deriving DecidableEq

structure DataType where
  primitive_type : PrimitiveTypeEnum
  name : String
  deriving DecidableEq

/-- The part of a constructed `Data` instance relevant to its type
descriptor: the stored `entity_type` and the concrete class's declared
`primitive_type()`. -/
structure DataCore where
  entity_type : DataType
  class_primitive : PrimitiveTypeEnum
  deriving DecidableEq

/-- `Data.__init__` (data.py lines 37-54): asserts the supplied `data_type`
is non-null and that `data_type.primitive_type == self.primitive_type()`,
then stores it as the entity type.  Embedded as a fallible constructor
returning `none` exactly when an assertion fails. -/
def data_init (classPrim : PrimitiveTypeEnum) (data_type : Option DataType) :
    Option DataCore :=
  match data_type with
  | none => none
  | some dt =>
      if dt.primitive_type = classPrim then some ⟨dt, classPrim⟩ else none

/-- C10: the constructor rejects a null `data_type` and a `data_type` whose
primitive type differs from the class's declared one, and every
successfully constructed instance carries a type descriptor of the class's
primitive kind. -/
theorem C10_data_init_primitive_type (classPrim : PrimitiveTypeEnum)
    (dt : DataType) (d : DataCore) :
    data_init classPrim none = none ∧
    (dt.primitive_type ≠ classPrim → data_init classPrim (some dt) = none) ∧
    (data_init classPrim (some dt) = some d →
      d.entity_type.primitive_type = classPrim ∧ d.entity_type = dt) := by
  refine ⟨rfl, fun h => by simp [data_init, h], fun h => ?_⟩
  simp only [data_init] at h
  by_cases hp : dt.primitive_type = classPrim
  · rw [if_pos hp] at h
    cases h
    exact ⟨hp, rfl⟩
  · rw [if_neg hp] at h
    exact Option.noConfusion h

/-- Witness for C10 on concrete float/text data types. -/
theorem C10_data_init_primitive_type_witness :
    data_init PrimitiveTypeEnum.FLOAT none = none ∧
    data_init PrimitiveTypeEnum.FLOAT (some ⟨PrimitiveTypeEnum.TEXT, "t"⟩) = none ∧
    (⟨⟨PrimitiveTypeEnum.FLOAT, "f"⟩, PrimitiveTypeEnum.FLOAT⟩ :
        DataCore).entity_type.primitive_type = PrimitiveTypeEnum.FLOAT :=
  ⟨(C10_data_init_primitive_type PrimitiveTypeEnum.FLOAT
      ⟨PrimitiveTypeEnum.TEXT, "t"⟩ ⟨⟨PrimitiveTypeEnum.TEXT, "t"⟩,
        PrimitiveTypeEnum.TEXT⟩).1,
   (C10_data_init_primitive_type PrimitiveTypeEnum.FLOAT
      ⟨PrimitiveTypeEnum.TEXT, "t"⟩ ⟨⟨PrimitiveTypeEnum.TEXT, "t"⟩,
        PrimitiveTypeEnum.TEXT⟩).2.1 (by decide),
   ((C10_data_init_primitive_type PrimitiveTypeEnum.FLOAT
      ⟨PrimitiveTypeEnum.FLOAT, "f"⟩ ⟨⟨PrimitiveTypeEnum.FLOAT, "f"⟩,
        PrimitiveTypeEnum.FLOAT⟩).2.2 rfl).1⟩

/-! ## `GeoImage.vertices` accessors (src/geoh5py/objects/geo_image.py)

The setter accepts a python list (converted through `np.asarray`) or a
numpy array and demands shape `(4, 3)`; anything else raises `ValueError`.
Accepted vertices are stored as four `(x, y, z)` records; the getter views
the stored records back as a float array of shape `(-1, 3)`.  Scalar
entries are embedded as `Int` stand-ins for the float coordinates (the
accessors only move them around). -/

/-- Inputs reaching the setter: a (nested) python list, a numpy array —
both carried as rows of scalars — or any non-list, non-array value. -/
inductive VerticesInput where
  | pylist (rows : List (List Int))
  | array (rows : List (List Int))
  | notAnArray
  deriving DecidableEq

/-- Shape check `xyz.shape == (4, 3)`: four rows of three scalars (a ragged
nested list has no rectangular shape and fails the check too). -/
def hasShape4x3 (rows : List (List Int)) : Bool :=
  rows.length = 4 && rows.all fun r => r.length = 3

/-- `GeoImage.vertices` setter (geo_image.py lines 231-243): converts a
list input to an array, raises `ValueError` unless the result is an array
of shape `(4, 3)`, then stores the rows as `(x, y, z)` records. -/
def geoimage_vertices_setter (xyz : VerticesInput) :
    Except String (List (Int × Int × Int)) :=
  match xyz with
  | VerticesInput.pylist rows | VerticesInput.array rows =>
      if hasShape4x3 rows then
        Except.ok (rows.map fun r => (r.getD 0 0, r.getD 1 0, r.getD 2 0))
      else
        Except.error "ValueError"
  | VerticesInput.notAnArray => Except.error "ValueError"

/-- `GeoImage.vertices` getter (geo_image.py lines 214-229) on an image
whose vertices are stored: views the four stored records back as rows of
three floats (`reshape((-1, 3))`). -/
def geoimage_vertices_getter (stored : List (Int × Int × Int)) :
    List (List Int) :=
  stored.map fun v => [v.1, v.2.1, v.2.2]

theorem hasShape4x3_spec (rows : List (List Int)) (h : hasShape4x3 rows) :
    rows.length = 4 ∧ ∀ r ∈ rows, r.length = 3 := by
  unfold hasShape4x3 at h
  simp only [Bool.and_eq_true, decide_eq_true_eq, List.all_eq_true] at h
  exact h

theorem geoimage_setter_getter_roundtrip (rows : List (List Int))
    (h : hasShape4x3 rows) :
    geoimage_vertices_getter
      (rows.map fun r => (r.getD 0 0, r.getD 1 0, r.getD 2 0)) = rows := by
  obtain ⟨-, hr⟩ := hasShape4x3_spec rows h
  unfold geoimage_vertices_getter
  rw [List.map_map]
  have hid : ∀ r ∈ rows,
      ((fun v : Int × Int × Int => [v.1, v.2.1, v.2.2]) ∘
        fun r => (r.getD 0 0, r.getD 1 0, r.getD 2 0)) r = id r := by
    intro r hrr
    obtain ⟨a, b, c, rfl⟩ := List.length_eq_three.mp (hr r hrr)
    rfl
  rw [List.map_congr_left hid, List.map_id]

theorem geoimage_getter_rows_length (stored : List (Int × Int × Int)) :
    ∀ r ∈ geoimage_vertices_getter stored, r.length = 3 := by
  intro r hr
  simp only [geoimage_vertices_getter, List.mem_map] at hr
  obtain ⟨v, -, rfl⟩ := hr
  rfl

/-- C9: the `GeoImage.vertices` setter accepts only a list or array of
shape `(4, 3)` and raises `ValueError` for every other input; any stored
vertices hence number exactly four, and the getter returns them as a
`(4, 3)` array of scalar rows, recovering the rows that were set. -/
theorem C9_geoimage_vertices (xyz : VerticesInput) (rows : List (List Int))
    (stored : List (Int × Int × Int)) :
    geoimage_vertices_setter VerticesInput.notAnArray = Except.error "ValueError" ∧
    (hasShape4x3 rows = false →
      geoimage_vertices_setter (VerticesInput.pylist rows) = Except.error "ValueError" ∧
      geoimage_vertices_setter (VerticesInput.array rows) = Except.error "ValueError") ∧
    (geoimage_vertices_setter xyz = Except.ok stored →
      stored.length = 4 ∧
      (geoimage_vertices_getter stored).length = 4 ∧
      ∀ r ∈ geoimage_vertices_getter stored, r.length = 3) ∧
    (hasShape4x3 rows = true →
      geoimage_vertices_setter (VerticesInput.pylist rows) =
        Except.ok (rows.map fun r => (r.getD 0 0, r.getD 1 0, r.getD 2 0)) ∧
      geoimage_vertices_getter
        (rows.map fun r => (r.getD 0 0, r.getD 1 0, r.getD 2 0)) = rows) := by
  refine ⟨rfl,
    fun h => ⟨by simp [geoimage_vertices_setter, h],
      by simp [geoimage_vertices_setter, h]⟩,
    fun h => ?_,
    fun h => ⟨by simp [geoimage_vertices_setter, h],
      geoimage_setter_getter_roundtrip rows h⟩⟩
  rcases xyz with rows' | rows' | _
  · simp only [geoimage_vertices_setter] at h
    split at h
    · rename_i hs
      cases h
      obtain ⟨h4, -⟩ := hasShape4x3_spec rows' hs
      exact ⟨by simp [h4], by simp [geoimage_vertices_getter, h4],
        geoimage_getter_rows_length _⟩
    · exact Except.noConfusion h
  · simp only [geoimage_vertices_setter] at h
    split at h
    · rename_i hs
      cases h
      obtain ⟨h4, -⟩ := hasShape4x3_spec rows' hs
      exact ⟨by simp [h4], by simp [geoimage_vertices_getter, h4],
        geoimage_getter_rows_length _⟩
    · exact Except.noConfusion h
  · exact Except.noConfusion h

/-- Four image corners used as a concrete `(4, 3)` vertices input. -/
def goodRows : List (List Int) := [[0, 0, 0], [9, 0, 0], [9, 5, 0], [0, 5, 0]]

/-- Witness for C9: a non-array input and a `(1, 3)` list are rejected, the
four-corner input is stored, and the getter recovers it. -/
theorem C9_geoimage_vertices_witness :
    geoimage_vertices_setter VerticesInput.notAnArray = Except.error "ValueError" ∧
    geoimage_vertices_setter (VerticesInput.pylist [[1, 2, 3]]) =
      Except.error "ValueError" ∧
    geoimage_vertices_setter (VerticesInput.pylist goodRows) =
      Except.ok [(0, 0, 0), (9, 0, 0), (9, 5, 0), (0, 5, 0)] ∧
    geoimage_vertices_getter [(0, 0, 0), (9, 0, 0), (9, 5, 0), (0, 5, 0)] =
      goodRows :=
  ⟨(C9_geoimage_vertices VerticesInput.notAnArray [] []).1,
   ((C9_geoimage_vertices VerticesInput.notAnArray [[1, 2, 3]] []).2.1
      (by decide)).1,
   ((C9_geoimage_vertices VerticesInput.notAnArray goodRows []).2.2.2
      (by decide)).1,
   ((C9_geoimage_vertices VerticesInput.notAnArray goodRows []).2.2.2
      (by decide)).2⟩

/-! ## EM survey component binding and metadata edition
(src/geoh5py/objects/surveys/electromagnetics/base.py)

The survey's `metadata["EM Dataset"]` dict is embedded as an
insertion-ordered association list of python values; float channel values
are carried as `Int` stand-ins (only their count and emptiness are ever
used).  The paired receiver/transmitter complements are embedded by their
metadata (present exactly when the attribute is set). -/

/-- A `PropertyGroup`: name and ordered data uids ("properties"). -/
structure PropertyGroupRec where
  name : String
  properties : List Nat
  deriving DecidableEq

/-- A python value as stored in survey metadata or passed to
`edit_metadata`. -/
inductive PyVal where
  | pynull
  | pstr (s : String)
  | pnum (n : Int)
  | pnums (l : List Int)
  | pnames (l : List String)
  | puid (u : Nat)
  | pgroup (g : PropertyGroupRec)
  | pdict (w : List (String × PyVal))

/-- Python dict read `m[k]`. -/
def getItem {α : Type} (m : List (String × α)) (k : String) : Option α :=
  (m.find? fun p => p.1 == k).map fun p => p.2

/-- Python dict write `m[k] = v`: overwrite in place or append. -/
def setItem {α : Type} (m : List (String × α)) (k : String) (v : α) :
    List (String × α) :=
  if (m.find? fun p => p.1 == k).isSome then
    m.map fun p => if p.1 == k then (k, v) else p
  else m ++ [(k, v)]

/-- Python dict delete `del m[k]`. -/
def delItem {α : Type} (m : List (String × α)) (k : String) :
    List (String × α) :=
  m.filter fun p => !(p.1 == k)

structure EMSurvey where
  metadata : List (String × PyVal)
  property_groups : List PropertyGroupRec
  receivers : Option (List (String × PyVal))
  transmitters : Option (List (String × PyVal))

/-- `BaseEMSurvey.channels` getter (base.py lines 147-153):
`metadata["EM Dataset"]["Channels"]`, as a list when it is one. -/
def channels (s : EMSurvey) : Option (List Int) :=
  match getItem s.metadata "Channels" with
  | some (PyVal.pnums l) => some l
  | _ => none

/-- The entry guard of `add_component_data`:
`self.channels is None or not self.channels`. -/
def channelsEmpty (s : EMSurvey) : Bool :=
  match channels s with
  | none => true
  | some l => l.isEmpty

/-- One step of `_edit_validate_property_groups` (base.py lines 234-254)
for a resolved `PropertyGroup`: channel-count check, then append the name
to `metadata["EM Dataset"]["Property groups"]` when absent. -/
def pg_step (s : EMSurvey) (g : PropertyGroupRec) :
    EMSurvey × Except String Unit :=
  match channels s with
  | none => (s, Except.error "TypeError")
  | some ch =>
      if g.properties.length ≠ ch.length then (s, Except.error "ValueError")
      else
        match getItem s.metadata "Property groups" with
        | some (PyVal.pnames l) =>
            if g.name ∈ l then (s, Except.ok ())
            else
              ({ s with metadata :=
                  setItem s.metadata "Property groups" (PyVal.pnames (l ++ [g.name])) },
               Except.ok ())
        | _ => (s, Except.error "KeyError")

/-- Resolution of one element of the (wrapped) value list in
`_edit_validate_property_groups`: a `PropertyGroup` is used as is, a string
must name an existing group, anything else raises `TypeError`. -/
def validate_pg_one (s : EMSurvey) (val : PyVal) : EMSurvey × Except String Unit :=
  match val with
  | PyVal.pgroup g => pg_step s g
  | PyVal.pstr n =>
      match s.property_groups.find? (fun pg => pg.name == n) with
      | some g => pg_step s g
      | none => (s, Except.error "TypeError")
  | _ => (s, Except.error "TypeError")

def validate_pg_list : EMSurvey → List PyVal → EMSurvey × Except String Unit
  | s, [] => (s, Except.ok ())
  | s, v :: vs =>
      match validate_pg_one s v with
      | (s1, Except.ok _) => validate_pg_list s1 vs
      | (s1, Except.error e) => (s1, Except.error e)

/-- `_edit_validate_property_groups` (base.py lines 222-254): a `None`
value first resets the metadata list (and then fails on the wrapped
`[None]`); a non-list value is wrapped in a singleton; a python list of
names iterates over its elements. -/
def edit_validate_property_groups (s : EMSurvey) (value : PyVal) :
    EMSurvey × Except String Unit :=
  let s0 := match value with
    | PyVal.pynull =>
        { s with metadata := setItem s.metadata "Property groups" (PyVal.pnames []) }
    | _ => s
  let vals := match value with
    | PyVal.pnames l => l.map PyVal.pstr
    | v => [v]
  validate_pg_list s0 vals

/-- One entry of `edit_metadata` (base.py lines 198-214): waveform keys go
into the `"Waveform"` sub-dict, `"Property groups"` is validated, a `None`
value deletes the key, anything else is assigned. -/
def edit_one (s : EMSurvey) (key : String) (value : PyVal) :
    EMSurvey × Except String Unit :=
  if key = "Discretization" ∨ key = "Timing mark" ∨ key = "Waveform" then
    let m := if (getItem s.metadata "Waveform").isSome then s.metadata
             else setItem s.metadata "Waveform" (PyVal.pdict [])
    let waveKey := key.replace "Waveform" "Discretization"
    match getItem m "Waveform" with
    | some (PyVal.pdict w) =>
        ({ s with metadata := setItem m "Waveform" (PyVal.pdict (setItem w waveKey value)) },
         Except.ok ())
    | _ => ({ s with metadata := m }, Except.error "TypeError")
  else if key = "Property groups" then
    edit_validate_property_groups s value
  else
    match value with
    | PyVal.pynull => ({ s with metadata := delItem s.metadata key }, Except.ok ())
    | v => ({ s with metadata := setItem s.metadata key v }, Except.ok ())

def edit_loop : EMSurvey → List (String × PyVal) → EMSurvey × Except String Unit
  | s, [] => (s, Except.ok ())
  | s, (k, v) :: rest =>
      match edit_one s k v with
      | (s1, Except.ok _) => edit_loop s1 rest
      | (s1, Except.error e) => (s1, Except.error e)

/-- `edit_metadata` (base.py lines 191-220): process the entries, then push
the survey's metadata onto the receivers and transmitters entities when
those attributes are set.  The complement's metadata setter is not in the
sources (the base-class setter is abstract); modelled from the spec, which
requires the paired complement's metadata to be kept synchronized, as a
plain replacement. -/
def edit_metadata (s : EMSurvey) (entries : List (String × PyVal)) :
    EMSurvey × Except String Unit :=
  match edit_loop s entries with
  | (s1, Except.ok _) =>
      let s2 := match s1.receivers with
        | some _ => { s1 with receivers := some s1.metadata }
        | none => s1
      let s3 := match s2.transmitters with
        | some _ => { s2 with transmitters := some s2.metadata }
        | none => s2
      (s3, Except.ok ())
  | r => r

/-- A data entity passed to `add_component_data`: its uid, whether it is a
`FloatData` instance, and whether its parent is the target survey. -/
structure DataRef where
  uid : Nat
  isFloatData : Bool
  parentIsSurvey : Bool
  deriving DecidableEq

/-- A component block of the input dict: a list of data entities, or a
value of any other type (the nested attribute-dict branch constructs new
entities through the store and is outside the claims' inputs). -/
inductive ComponentBlock where
  | dataList (l : List DataRef)
  | notAListOrDict
  deriving DecidableEq

/-- One iteration of the `add_component_data` loop (base.py lines 97-142)
on a list-valued component: duplicate-name check, element type check,
channel-count check, parent assertion; then the group is created and
registered (`add_data_to_group`, not in the sources — modelled from the
spec: it creates a `PropertyGroup` of that name holding the given data
uids) and `edit_metadata({"Property groups": group})` is applied. -/
def add_component_one (s : EMSurvey) (name : String) (block : ComponentBlock) :
    EMSurvey × Except String PropertyGroupRec :=
  if name ∈ s.property_groups.map PropertyGroupRec.name then
    (s, Except.error "ValueError")
  else
    match block with
    | ComponentBlock.notAListOrDict => (s, Except.error "TypeError")
    | ComponentBlock.dataList l =>
        if !l.all DataRef.isFloatData then (s, Except.error "TypeError")
        else
          match channels s with
          | none => (s, Except.error "TypeError")
          | some ch =>
              if l.length ≠ ch.length then (s, Except.error "ValueError")
              else if !l.all DataRef.parentIsSurvey then
                (s, Except.error "AssertionError")
              else
                let pg : PropertyGroupRec := ⟨name, l.map DataRef.uid⟩
                let s1 := { s with property_groups := s.property_groups ++ [pg] }
                match edit_metadata s1 [("Property groups", PyVal.pgroup pg)] with
                | (s2, Except.ok _) => (s2, Except.ok pg)
                | (s2, Except.error e) => (s2, Except.error e)

def add_component_loop :
    EMSurvey → List (String × ComponentBlock) →
      EMSurvey × Except String (List PropertyGroupRec)
  | s, [] => (s, Except.ok [])
  | s, (name, block) :: rest =>
      match add_component_one s name block with
      | (s1, Except.ok pg) =>
          match add_component_loop s1 rest with
          | (s2, Except.ok pgs) => (s2, Except.ok (pg :: pgs))
          | (s2, Except.error e) => (s2, Except.error e)
      | (s1, Except.error e) => (s1, Except.error e)

/-- `BaseEMSurvey.add_component_data` (base.py lines 42-145) restricted to
list-valued component blocks: the channels guard, then the per-component
loop.  The final `workspace.finalize()` flush has no object-graph effect. -/
def add_component_data (s : EMSurvey) (data : List (String × ComponentBlock)) :
    EMSurvey × Except String (List PropertyGroupRec) :=
  if channelsEmpty s then (s, Except.error "AttributeError")
  else add_component_loop s data

/-- The metadata-edit loop never touches the receivers/transmitters
attributes themselves; this predicate captures that. -/
def sameEnds (s t : EMSurvey) : Prop :=
  t.receivers = s.receivers ∧ t.transmitters = s.transmitters

theorem sameEnds_trans {a b c : EMSurvey} (h1 : sameEnds a b) (h2 : sameEnds b c) :
    sameEnds a c :=
  ⟨h2.1.trans h1.1, h2.2.trans h1.2⟩

theorem pg_step_ends (s : EMSurvey) (g : PropertyGroupRec) :
    sameEnds s (pg_step s g).1 := by
  unfold pg_step
  repeat' split
  all_goals exact ⟨rfl, rfl⟩

theorem validate_pg_one_ends (s : EMSurvey) (v : PyVal) :
    sameEnds s (validate_pg_one s v).1 := by
  unfold validate_pg_one
  repeat' split
  all_goals first
    | exact pg_step_ends _ _
    | exact ⟨rfl, rfl⟩

theorem validate_pg_list_ends (vs : List PyVal) :
    ∀ s : EMSurvey, sameEnds s (validate_pg_list s vs).1 := by
  induction vs with
  | nil => intro s; exact ⟨rfl, rfl⟩
  | cons v vs ih =>
    intro s
    have hv := validate_pg_one_ends s v
    unfold validate_pg_list
    rcases h1 : validate_pg_one s v with ⟨s1, r⟩
    rw [h1] at hv
    cases r with
    | ok u => exact sameEnds_trans hv (ih s1)
    | error e => exact hv

theorem edit_validate_property_groups_ends (s : EMSurvey) (v : PyVal) :
    sameEnds s (edit_validate_property_groups s v).1 := by
  unfold edit_validate_property_groups
  cases v <;>
    exact sameEnds_trans ⟨rfl, rfl⟩ (validate_pg_list_ends _ _)

theorem edit_one_ends (s : EMSurvey) (k : String) (v : PyVal) :
    sameEnds s (edit_one s k v).1 := by
  unfold edit_one
  repeat' (first | split | dsimp only)
  all_goals first
    | exact edit_validate_property_groups_ends _ _
    | exact ⟨rfl, rfl⟩

theorem edit_loop_ends (entries : List (String × PyVal)) :
    ∀ s : EMSurvey, sameEnds s (edit_loop s entries).1 := by
  induction entries with
  | nil => intro s; exact ⟨rfl, rfl⟩
  | cons kv rest ih =>
    intro s
    have hv := edit_one_ends s kv.1 kv.2
    unfold edit_loop
    rcases h1 : edit_one s kv.1 kv.2 with ⟨s1, r⟩
    rw [h1] at hv
    cases r with
    | ok u => exact sameEnds_trans hv (ih s1)
    | error e => exact hv

/-- C7: whenever `edit_metadata` completes on a survey whose receivers
attribute is set, the receivers entity's metadata equals the survey's
metadata, and likewise for the transmitters attribute: every completed
metadata edit is propagated to the paired complement before returning. -/
theorem C7_edit_metadata_sync (s s' : EMSurvey) (entries : List (String × PyVal))
    (h : edit_metadata s entries = (s', Except.ok ())) :
    (s.receivers ≠ none → s'.receivers = some s'.metadata) ∧
    (s.transmitters ≠ none → s'.transmitters = some s'.metadata) := by
  unfold edit_metadata at h
  have hends := edit_loop_ends entries s
  rcases h1 : edit_loop s entries with ⟨s1, r⟩
  rw [h1] at h hends
  cases r with
  | error e => exact Except.noConfusion (congrArg Prod.snd h)
  | ok u =>
    have hfst : _ = s' := congrArg Prod.fst h
    rcases hr : s1.receivers with _ | rm <;>
      rcases ht : s1.transmitters with _ | tm <;>
        simp only [hr, ht] at hfst <;> subst hfst
    · exact ⟨fun hc => absurd (hends.1.symm.trans hr) hc,
        fun hc => absurd (hends.2.symm.trans ht) hc⟩
    · exact ⟨fun hc => absurd (hends.1.symm.trans hr) hc, fun _ => rfl⟩
    · exact ⟨fun _ => rfl, fun hc => absurd (hends.2.symm.trans ht) hc⟩
    · exact ⟨fun _ => rfl, fun _ => rfl⟩

/-- A survey with both complements set (their metadata initially empty). -/
def surveyRT : EMSurvey :=
  { metadata := [("Channels", PyVal.pnums [1, 2]),
                 ("Property groups", PyVal.pnames [])]
    property_groups := []
    receivers := some []
    transmitters := some [] }

/-- The state of `surveyRT` after `edit_metadata({"Unit": "ms"})`. -/
def surveyRTafter : EMSurvey :=
  { metadata := [("Channels", PyVal.pnums [1, 2]),
                 ("Property groups", PyVal.pnames []),
                 ("Unit", PyVal.pstr "ms")]
    property_groups := []
    receivers := some [("Channels", PyVal.pnums [1, 2]),
                       ("Property groups", PyVal.pnames []),
                       ("Unit", PyVal.pstr "ms")]
    transmitters := some [("Channels", PyVal.pnums [1, 2]),
                          ("Property groups", PyVal.pnames []),
                          ("Unit", PyVal.pstr "ms")] }

/-- Witness for C7 on a concrete metadata edit adding a key. -/
theorem C7_edit_metadata_sync_witness :
    edit_metadata surveyRT [("Unit", PyVal.pstr "ms")] =
      (surveyRTafter, Except.ok ()) ∧
    surveyRT.receivers ≠ none ∧ surveyRT.transmitters ≠ none ∧
    surveyRTafter.receivers = some surveyRTafter.metadata ∧
    surveyRTafter.transmitters = some surveyRTafter.metadata :=
  ⟨rfl, fun h => Option.noConfusion h, fun h => Option.noConfusion h,
   (C7_edit_metadata_sync surveyRT surveyRTafter [("Unit", PyVal.pstr "ms")] rfl).1
     (fun h => Option.noConfusion h),
   (C7_edit_metadata_sync surveyRT surveyRTafter [("Unit", PyVal.pstr "ms")] rfl).2
     (fun h => Option.noConfusion h)⟩

/-- A fresh survey with channels `[1.0, 2.0]`, no property groups and no
complements. -/
def survey0 : EMSurvey :=
  { metadata := [("Channels", PyVal.pnums [1, 2]),
                 ("Property groups", PyVal.pnames [])]
    property_groups := []
    receivers := none
    transmitters := none }

/-- A float data entity parented to the target survey. -/
def dref (u : Nat) : DataRef := ⟨u, true, true⟩

/-- Component "A": two float data entities, matching the two channels. -/
def blockA : ComponentBlock := ComponentBlock.dataList [dref 1, dref 2]

/-- Component "B": a single float data entity — one channel short. -/
def blockB : ComponentBlock := ComponentBlock.dataList [dref 3]

/-- `survey0` after a successful `add_component_data({"A": [d1, d2]})`. -/
def surveyA : EMSurvey :=
  { metadata := [("Channels", PyVal.pnums [1, 2]),
                 ("Property groups", PyVal.pnames ["A"])]
    property_groups := [⟨"A", [1, 2]⟩]
    receivers := none
    transmitters := none }

/-- C4: counterexample.  On the two-component input
`{"A": [d1, d2], "B": [d3]}` the channel-count error for "B" is raised
after component "A" has already been processed: the call raises, yet the
returned object graph holds the new PropertyGroup "A" and the metadata
"Property groups" list has grown — the graph is not left unchanged. -/
theorem C4_add_component_counterexample :
    (add_component_data survey0 [("A", blockA), ("B", blockB)]).2 =
      Except.error "ValueError" ∧
    (add_component_data survey0 [("A", blockA), ("B", blockB)]).1.property_groups =
      [⟨"A", [1, 2]⟩] ∧
    (add_component_data survey0 [("A", blockA), ("B", blockB)]).1.property_groups ≠
      survey0.property_groups ∧
    getItem (add_component_data survey0 [("A", blockA), ("B", blockB)]).1.metadata
      "Property groups" = some (PyVal.pnames ["A"]) ∧
    getItem survey0.metadata "Property groups" = some (PyVal.pnames []) :=
  ⟨rfl, rfl, by decide, rfl, rfl⟩

/-- C4 (amended): each claimed validation error — channels unset/empty,
duplicate group name, wrong component type, channel-count mismatch — is
raised before the offending component mutates the graph, so an error on
the first component leaves the object graph unchanged; but an error on a
later component of a multi-component input keeps the property groups and
metadata created for the earlier components (no rollback). -/
theorem C4_add_component_amended (s : EMSurvey) (name : String) (l : List DataRef)
    (rest : List (String × ComponentBlock)) (ch : List Int) :
    (channelsEmpty s = true →
      add_component_data s ((name, ComponentBlock.dataList l) :: rest) =
        (s, Except.error "AttributeError")) ∧
    (channelsEmpty s = false →
      name ∈ s.property_groups.map PropertyGroupRec.name →
      add_component_data s ((name, ComponentBlock.dataList l) :: rest) =
        (s, Except.error "ValueError")) ∧
    (channelsEmpty s = false →
      name ∉ s.property_groups.map PropertyGroupRec.name →
      add_component_data s ((name, ComponentBlock.notAListOrDict) :: rest) =
        (s, Except.error "TypeError")) ∧
    (channelsEmpty s = false →
      name ∉ s.property_groups.map PropertyGroupRec.name →
      l.all DataRef.isFloatData = false →
      add_component_data s ((name, ComponentBlock.dataList l) :: rest) =
        (s, Except.error "TypeError")) ∧
    (channelsEmpty s = false →
      name ∉ s.property_groups.map PropertyGroupRec.name →
      l.all DataRef.isFloatData = true → channels s = some ch →
      l.length ≠ ch.length →
      add_component_data s ((name, ComponentBlock.dataList l) :: rest) =
        (s, Except.error "ValueError")) := by
  refine ⟨fun h1 => ?_, fun h1 h2 => ?_, fun h1 h2 => ?_, fun h1 h2 h3 => ?_,
    fun h1 h2 h3 h4 h5 => ?_⟩
  · simp [add_component_data, h1]
  · simp [add_component_data, add_component_loop, add_component_one, h1, h2]
  · simp [add_component_data, add_component_loop, add_component_one, h1, h2]
  · simp [add_component_data, add_component_loop, add_component_one, h1, h2, h3]
  · simp [add_component_data, add_component_loop, add_component_one,
      h1, h2, h3, h4, h5]

/-- Witness for the amended C4 theorem: a duplicate-name failure on the
first component of `surveyA` leaves the graph unchanged. -/
theorem C4_add_component_amended_witness :
    channelsEmpty surveyA = false ∧
    "A" ∈ surveyA.property_groups.map PropertyGroupRec.name ∧
    add_component_data surveyA [("A", blockA), ("B", blockB)] =
      (surveyA, Except.error "ValueError") :=
  ⟨rfl, by decide,
   (C4_add_component_amended surveyA "A" [dref 1, dref 2] [("B", blockB)] []).2.1
     rfl (by decide)⟩

/-- A survey whose channels list is empty. -/
def surveyNoChannels : EMSurvey :=
  { metadata := [("Channels", PyVal.pnums []),
                 ("Property groups", PyVal.pnames [])]
    property_groups := []
    receivers := none
    transmitters := none }

/-- C5: `add_component_data` raises when channels are unset or empty, when
a requested component name already names a PropertyGroup, and when a
component's channel-entry count differs from `len(channels)`; on the valid
scenario — channels `[1.0, 2.0]`, component "A" with two parented float
data entities — it creates exactly one PropertyGroup "A" with those two
properties, records the name in the metadata, and returns it as the sole
created group; repeating the call with the same name raises. -/
theorem C5_add_component_data_spec (s : EMSurvey) (name : String)
    (l : List DataRef) (ch : List Int) :
    (channelsEmpty s = true → ∀ data,
      add_component_data s data = (s, Except.error "AttributeError")) ∧
    (channelsEmpty s = false →
      name ∈ s.property_groups.map PropertyGroupRec.name →
      (add_component_data s [(name, ComponentBlock.dataList l)]).2 =
        Except.error "ValueError") ∧
    (channelsEmpty s = false →
      name ∉ s.property_groups.map PropertyGroupRec.name →
      l.all DataRef.isFloatData = true → channels s = some ch →
      l.length ≠ ch.length →
      (add_component_data s [(name, ComponentBlock.dataList l)]).2 =
        Except.error "ValueError") ∧
    add_component_data survey0 [("A", blockA)] =
      (surveyA, Except.ok [⟨"A", [1, 2]⟩]) ∧
    surveyA.property_groups = [⟨"A", [1, 2]⟩] ∧
    getItem surveyA.metadata "Property groups" = some (PyVal.pnames ["A"]) ∧
    (add_component_data surveyA [("A", blockA)]).2 = Except.error "ValueError" := by
  refine ⟨fun h1 data => ?_, fun h1 h2 => ?_, fun h1 h2 h3 h4 h5 => ?_,
    rfl, rfl, rfl, rfl⟩
  · simp [add_component_data, h1]
  · simp [add_component_data, add_component_loop, add_component_one, h1, h2]
  · simp [add_component_data, add_component_loop, add_component_one,
      h1, h2, h3, h4, h5]

/-- Witness for C5: the empty-channels guard and the channel-count
mismatch at concrete surveys. -/
theorem C5_add_component_data_spec_witness :
    channelsEmpty surveyNoChannels = true ∧
    add_component_data surveyNoChannels [("A", blockA)] =
      (surveyNoChannels, Except.error "AttributeError") ∧
    channelsEmpty survey0 = false ∧
    channels survey0 = some [1, 2] ∧
    (add_component_data survey0 [("B", blockB)]).2 = Except.error "ValueError" :=
  ⟨rfl,
   (C5_add_component_data_spec surveyNoChannels "A" [] []).1 rfl [("A", blockA)],
   rfl, rfl,
   (C5_add_component_data_spec survey0 "B" [dref 3] [1, 2]).2.2.1
     rfl (by decide) rfl rfl (by decide)⟩

/-! ## Ground-TEM paired copy renumbering
(src/geoh5py/objects/surveys/electromagnetics/ground_tem.py, `BaseGroundTEM.copy`)

Transmitter-loop ids are non-negative integers, embedded as `Nat`; the
`tx_id_property` value arrays are `List Nat`.  `np.unique` is embedded as
sort-and-deduplicate, `np.intersect1d` as the sorted unique common values,
and the python renumbering dict (built with last-wins key overwrite) as a
last-index lookup. -/

/-- Insert a value into a sorted duplicate-free list, keeping it so. -/
def insertUnique (x : Nat) : List Nat → List Nat
  | [] => [x]
  | y :: ys =>
      if x < y then x :: y :: ys
      else if x = y then y :: ys
      else y :: insertUnique x ys

/-- `np.unique`: the values of the input, sorted and deduplicated. -/
def npUnique (l : List Nat) : List Nat := l.foldr insertUnique []

/-- `np.intersect1d`: sorted unique values common to both arrays. -/
def intersect1d (a b : List Nat) : List Nat :=
  npUnique (a.filter fun v => decide (v ∈ b))

/-- Last index at which `v` occurs in `keys` (offset by `base`): the lookup
of the python dict `{val: ind for ind, val in enumerate(keys)}`, whose
comprehension overwrites earlier bindings of a duplicated key. -/
def dictIndex (base : Nat) : List Nat → Nat → Option Nat
  | [], _ => none
  | k :: ks, v =>
      match dictIndex (base + 1) ks v with
      | some j => some j
      | none => if k = v then some base else none

/-- The renumbering map `value_map` of ground_tem.py lines 157-164. -/
def valueMap (keys : List Nat) (v : Nat) : Option Nat := dictIndex 0 keys v

/-- `[value_map[val] for val in vals]`: `none` models the `KeyError` raised
on a value absent from the dict. -/
def remapValues (keys : List Nat) : List Nat → Option (List Nat)
  | [] => some []
  | v :: vs =>
      match valueMap keys v, remapValues keys vs with
      | some y, some ys => some (y :: ys)
      | _, _ => none

/-- `tx_ids` of ground_tem.py lines 122-134: the complement's tx_id values
surviving the derived mask, i.e. exactly its values lying in the
intersection of both sides (both the receiver and the transmitter branch
filter by `val in intersect`). -/
def keptTxIds (newVals compVals : List Nat) : List Nat :=
  compVals.filter fun v => decide (v ∈ intersect1d newVals compVals)

/-- The key array `np.r_[0, np.unique(tx_ids)]` of ground_tem.py line 160
over which the renumbering dict is built. -/
def renumberKeys (newVals compVals : List Nat) : List Nat :=
  0 :: npUnique (keptTxIds newVals compVals)

/-- The tx-id remapping block of `BaseGroundTEM.copy` (ground_tem.py lines
116-175), abstracted over the copied entity's surviving tx_id values
(`newVals`, the mask-filtered values of line 100) and the complement's
tx_id values (`compVals`): the intersection of both sides is computed
(line 116), the complement keeps `keptTxIds` (lines 122-134), the
renumbering dict is built over `renumberKeys` (lines 157-164), and both
sides' values are re-indexed through it (lines 169-174).  Returns the
remapped complement values and the remapped copied-entity values; `none`
models the `KeyError` on a value absent from the dict. -/
def copy_renumber (newVals compVals : List Nat) : Option (List Nat × List Nat) :=
  match remapValues (renumberKeys newVals compVals) (keptTxIds newVals compVals),
        remapValues (renumberKeys newVals compVals) newVals with
  | some compOut, some newOut => some (compOut, newOut)
  | _, _ => none

theorem insertUnique_mem (x a : Nat) :
    ∀ l : List Nat, (a ∈ insertUnique x l ↔ a = x ∨ a ∈ l) := by
  intro l
  induction l with
  | nil => simp [insertUnique]
  | cons y ys ih =>
    unfold insertUnique
    by_cases h1 : x < y
    · simp [h1]
    · by_cases h2 : x = y
      · subst h2
        simp [h1]
      · simp only [h1, h2, if_false, List.mem_cons, ih]
        tauto

theorem insertUnique_sorted (x : Nat) :
    ∀ l : List Nat, l.Sorted (· < ·) → (insertUnique x l).Sorted (· < ·) := by
  intro l
  induction l with
  | nil => intro _; simp [insertUnique]
  | cons y ys ih =>
    intro hs
    rw [List.sorted_cons] at hs
    unfold insertUnique
    by_cases h1 : x < y
    · rw [if_pos h1, List.sorted_cons]
      refine ⟨?_, List.sorted_cons.mpr hs⟩
      intro b hb
      rcases List.mem_cons.mp hb with rfl | hb'
      · exact h1
      · exact h1.trans (hs.1 b hb')
    · by_cases h2 : x = y
      · rw [if_neg h1, if_pos h2]
        exact List.sorted_cons.mpr hs
      · rw [if_neg h1, if_neg h2, List.sorted_cons]
        have hyx : y < x := by omega
        refine ⟨?_, ih hs.2⟩
        intro b hb
        rcases (insertUnique_mem x b ys).mp hb with rfl | hb'
        · exact hyx
        · exact hs.1 b hb'

theorem npUnique_mem (a : Nat) : ∀ l : List Nat, a ∈ npUnique l ↔ a ∈ l := by
  intro l
  induction l with
  | nil => simp [npUnique]
  | cons x xs ih =>
    show a ∈ insertUnique x (npUnique xs) ↔ _
    rw [insertUnique_mem, ih]
    simp

theorem npUnique_sorted : ∀ l : List Nat, (npUnique l).Sorted (· < ·) := by
  intro l
  induction l with
  | nil => simp [npUnique]
  | cons x xs ih => exact insertUnique_sorted x (npUnique xs) ih

theorem npUnique_nodup (l : List Nat) : (npUnique l).Nodup :=
  (npUnique_sorted l).imp fun h => Nat.ne_of_lt h

/-- Sorted duplicate-free lists with the same members are equal. -/
theorem sorted_eq_of_mem_iff {l l' : List Nat}
    (hs : l.Sorted (· < ·)) (hs' : l'.Sorted (· < ·))
    (h : ∀ a, a ∈ l ↔ a ∈ l') : l = l' := by
  have hnd : l.Nodup := hs.imp fun h => Nat.ne_of_lt h
  have hnd' : l'.Nodup := hs'.imp fun h => Nat.ne_of_lt h
  exact List.eq_of_perm_of_sorted ((List.perm_ext_iff_of_nodup hnd hnd').mpr h) hs hs'

theorem mem_intersect1d (a : Nat) (x y : List Nat) :
    a ∈ intersect1d x y ↔ a ∈ x ∧ a ∈ y := by
  unfold intersect1d
  rw [npUnique_mem, List.mem_filter]
  simp

theorem dictIndex_eq_none (v : Nat) :
    ∀ (keys : List Nat), v ∉ keys → ∀ base, dictIndex base keys v = none := by
  intro keys
  induction keys with
  | nil => intro _ _; rfl
  | cons k ks ih =>
    intro h base
    unfold dictIndex
    rw [ih (fun hm => h (List.mem_cons_of_mem _ hm)) (base + 1)]
    have hk : k ≠ v := fun he => h (he ▸ List.mem_cons_self k ks)
    simp [hk]

theorem dictIndex_get :
    ∀ (keys : List Nat), keys.Nodup →
      ∀ (i : Nat) (hi : i < keys.length) (base : Nat),
        dictIndex base keys (keys.get ⟨i, hi⟩) = some (base + i) := by
  intro keys
  induction keys with
  | nil => intro _ i hi; exact absurd hi (by simp)
  | cons k ks ih =>
    intro hnd i hi base
    cases i with
    | zero =>
      have hk : k ∉ ks := (List.nodup_cons.mp hnd).1
      have hget : (k :: ks).get ⟨0, hi⟩ = k := rfl
      unfold dictIndex
      rw [hget, dictIndex_eq_none k ks hk (base + 1)]
      simp
    | succ j =>
      have hj : j < ks.length := Nat.lt_of_succ_lt_succ hi
      have hget : (k :: ks).get ⟨j + 1, hi⟩ = ks.get ⟨j, hj⟩ := rfl
      unfold dictIndex
      rw [hget, ih (List.nodup_cons.mp hnd).2 j hj (base + 1)]
      exact congrArg some (by omega)

theorem dictIndex_isSome (v : Nat) :
    ∀ (keys : List Nat), v ∈ keys →
      ∀ base, ∃ j, dictIndex base keys v = some j := by
  intro keys
  induction keys with
  | nil => intro h; exact absurd h (List.not_mem_nil v)
  | cons k ks ih =>
    intro hv base
    unfold dictIndex
    rcases hrec : dictIndex (base + 1) ks v with _ | j'
    · rcases List.mem_cons.mp hv with rfl | hm
      · exact ⟨base, by simp⟩
      · obtain ⟨j, hj⟩ := ih hm (base + 1)
        rw [hj] at hrec
        exact Option.noConfusion hrec
    · exact ⟨j', rfl⟩

theorem dictIndex_bounds (v : Nat) :
    ∀ (keys : List Nat) (base j : Nat),
      dictIndex base keys v = some j → base ≤ j ∧ j < base + keys.length := by
  intro keys
  induction keys with
  | nil => intro base j h; exact Option.noConfusion h
  | cons k ks ih =>
    intro base j h
    unfold dictIndex at h
    split at h
    · rename_i j' hrec
      cases h
      have := ih (base + 1) _ hrec
      simp only [List.length_cons]
      omega
    · rename_i hrec
      split at h
      · cases h
        simp only [List.length_cons]
        omega
      · exact Option.noConfusion h

theorem valueMap_get (keys : List Nat) (hnd : keys.Nodup)
    (i : Nat) (hi : i < keys.length) :
    valueMap keys (keys.get ⟨i, hi⟩) = some i := by
  have h := dictIndex_get keys hnd i hi 0
  simpa [valueMap] using h

theorem valueMap_isSome (keys : List Nat) (v : Nat) (hv : v ∈ keys) :
    ∃ j, valueMap keys v = some j ∧ j < keys.length := by
  obtain ⟨j, hj⟩ := dictIndex_isSome v keys hv 0
  exact ⟨j, hj, by simpa using (dictIndex_bounds v keys 0 j hj).2⟩

theorem remapValues_isSome (keys : List Nat) :
    ∀ vals : List Nat, (∀ v ∈ vals, v ∈ keys) →
      ∃ out, remapValues keys vals = some out := by
  intro vals
  induction vals with
  | nil => intro _; exact ⟨[], rfl⟩
  | cons v vs ih =>
    intro h
    obtain ⟨j, hj, -⟩ := valueMap_isSome keys v (h v (by simp))
    obtain ⟨out, hout⟩ := ih fun w hw => h w (by simp [hw])
    refine ⟨j :: out, ?_⟩
    unfold remapValues
    rw [hj, hout]

theorem remapValues_mem (keys : List Nat) :
    ∀ (vals out : List Nat), remapValues keys vals = some out →
      ∀ y ∈ out, ∃ v ∈ vals, valueMap keys v = some y := by
  intro vals
  induction vals with
  | nil =>
    intro out h y hy
    cases h
    exact absurd hy (List.not_mem_nil y)
  | cons v vs ih =>
    intro out h y hy
    unfold remapValues at h
    split at h
    · rename_i yv ys hv hys
      cases h
      rcases List.mem_cons.mp hy with rfl | hy'
      · exact ⟨v, by simp, hv⟩
      · obtain ⟨w, hw, hmap⟩ := ih ys hys y hy'
        exact ⟨w, by simp [hw], hmap⟩
    · exact Option.noConfusion h

theorem remapValues_mem_of (keys : List Nat) :
    ∀ (vals out : List Nat), remapValues keys vals = some out →
      ∀ v ∈ vals, ∀ y, valueMap keys v = some y → y ∈ out := by
  intro vals
  induction vals with
  | nil =>
    intro out _ v hv
    exact absurd hv (List.not_mem_nil v)
  | cons w ws ih =>
    intro out h v hv y hy
    unfold remapValues at h
    split at h
    · rename_i yv ys hw hys
      cases h
      rcases List.mem_cons.mp hv with rfl | hv'
      · rw [hy] at hw
        cases hw
        exact List.mem_cons_self _ _
      · exact List.mem_cons_of_mem _ (ih ys hys v hv' y hy)
    · exact Option.noConfusion h

/-- C2: counterexample.  When the id 0 survives the mask on both sides it
lies in the intersection, the renumbering dict is built over the key array
`[0, 0, 1]`, and the later binding of the duplicated key 0 wins: 0 is
remapped to 1 on both sides, not kept at 0 as the claim's "0 reserved for
Unknown (mapped to 0)" requires. -/
theorem C2_copy_renumber_counterexample :
    copy_renumber [0, 1] [0, 1] = some ([1, 2], [1, 2]) ∧
    renumberKeys [0, 1] [0, 1] = [0, 0, 1] ∧
    valueMap (renumberKeys [0, 1] [0, 1]) 0 = some 1 := by
  decide

/-- C2 (amended): when every surviving tx_id value of the copied entity is
0 or shared with the complement (so the dict lookup cannot fail) and 0
does not itself lie in the intersection, the renumbering behaves as
claimed: the complement keeps exactly the ids in the intersection of both
sides' values, the shared ids are renumbered in increasing order of
original id onto the contiguous range 1..k (k the intersection size) with
0 reserved and mapped to 0, both sides are re-indexed through this same
map, the remapped complement values cover exactly 1..k, and the copied
pair's remapped values lie in the 0..k range. -/
theorem C2_copy_renumber_amended (newVals compVals : List Nat)
    (hsub : ∀ v ∈ newVals, v = 0 ∨ v ∈ compVals)
    (hz : ¬(0 ∈ newVals ∧ 0 ∈ compVals)) :
    ∃ compOut newOut,
      copy_renumber newVals compVals = some (compOut, newOut) ∧
      (∀ v, v ∈ keptTxIds newVals compVals ↔ v ∈ intersect1d newVals compVals) ∧
      valueMap (renumberKeys newVals compVals) 0 = some 0 ∧
      (∀ (i : Nat) (hi : i < (intersect1d newVals compVals).length),
        valueMap (renumberKeys newVals compVals)
          ((intersect1d newVals compVals).get ⟨i, hi⟩) = some (i + 1)) ∧
      (∀ y, y ∈ compOut ↔
        1 ≤ y ∧ y ≤ (intersect1d newVals compVals).length) ∧
      (∀ y ∈ newOut, y ≤ (intersect1d newVals compVals).length) := by
  have hmemInter : ∀ a, a ∈ intersect1d newVals compVals ↔
      a ∈ newVals ∧ a ∈ compVals := fun a => mem_intersect1d a newVals compVals
  have hmemTx : ∀ a, a ∈ keptTxIds newVals compVals ↔
      a ∈ intersect1d newVals compVals := by
    intro a
    unfold keptTxIds
    rw [List.mem_filter]
    simp only [decide_eq_true_eq]
    exact ⟨fun h => h.2, fun h => ⟨((hmemInter a).mp h).2, h⟩⟩
  have hintSorted : (intersect1d newVals compVals).Sorted (· < ·) :=
    npUnique_sorted _
  have hF1 : npUnique (keptTxIds newVals compVals) = intersect1d newVals compVals :=
    sorted_eq_of_mem_iff (npUnique_sorted _) hintSorted
      (fun a => (npUnique_mem a _).trans (hmemTx a))
  have hkeys : renumberKeys newVals compVals = 0 :: intersect1d newVals compVals := by
    unfold renumberKeys
    rw [hF1]
  have h0inter : 0 ∉ intersect1d newVals compVals := fun hc =>
    hz ((hmemInter 0).mp hc)
  have hnodupInter : (intersect1d newVals compVals).Nodup := npUnique_nodup _
  have hnodup' : (0 :: intersect1d newVals compVals).Nodup :=
    List.nodup_cons.mpr ⟨h0inter, hnodupInter⟩
  have hmap0 : valueMap (renumberKeys newVals compVals) 0 = some 0 := by
    rw [hkeys]
    exact valueMap_get (0 :: intersect1d newVals compVals) hnodup' 0 (by simp)
  have hmapI : ∀ (i : Nat) (hi : i < (intersect1d newVals compVals).length),
      valueMap (renumberKeys newVals compVals)
        ((intersect1d newVals compVals).get ⟨i, hi⟩) = some (i + 1) := by
    intro i hi
    rw [hkeys]
    exact valueMap_get (0 :: intersect1d newVals compVals) hnodup' (i + 1)
      (by simp only [List.length_cons]; omega)
  have hsubTx : ∀ v ∈ keptTxIds newVals compVals,
      v ∈ renumberKeys newVals compVals := by
    intro v hv
    rw [hkeys]
    exact List.mem_cons_of_mem _ ((hmemTx v).mp hv)
  have hsubNew : ∀ v ∈ newVals, v ∈ renumberKeys newVals compVals := by
    intro v hv
    rw [hkeys]
    rcases hsub v hv with rfl | hc
    · exact List.mem_cons_self _ _
    · exact List.mem_cons_of_mem _ ((hmemInter v).mpr ⟨hv, hc⟩)
  obtain ⟨compOut, hcomp⟩ := remapValues_isSome _ _ hsubTx
  obtain ⟨newOut, hnew⟩ := remapValues_isSome _ _ hsubNew
  refine ⟨compOut, newOut, ?_, hmemTx, hmap0, hmapI, ?_, ?_⟩
  · unfold copy_renumber
    rw [hcomp, hnew]
  · intro y
    constructor
    · intro hy
      obtain ⟨v, hv, hmapv⟩ := remapValues_mem _ _ _ hcomp y hy
      obtain ⟨⟨i, hi⟩, hget⟩ := List.get_of_mem ((hmemTx v).mp hv)
      have hvi := hmapI i hi
      rw [hget] at hvi
      have h2 := hmapv.symm.trans hvi
      injection h2 with h3
      exact ⟨by omega, by omega⟩
    · rintro ⟨h1, h2⟩
      have hi : y - 1 < (intersect1d newVals compVals).length := by omega
      have hvmem : (intersect1d newVals compVals).get ⟨y - 1, hi⟩ ∈
          intersect1d newVals compVals := List.get_mem _ _ _
      have hmapv := hmapI (y - 1) hi
      have hy1 : y - 1 + 1 = y := by omega
      rw [hy1] at hmapv
      exact remapValues_mem_of _ _ _ hcomp _ ((hmemTx _).mpr hvmem) y hmapv
  · intro y hy
    obtain ⟨v, hv, hmapv⟩ := remapValues_mem _ _ _ hnew y hy
    rcases hsub v hv with rfl | hc
    · have h2 := hmapv.symm.trans hmap0
      injection h2 with h3
      omega
    · obtain ⟨⟨i, hi⟩, hget⟩ :=
        List.get_of_mem ((hmemInter v).mpr ⟨hv, hc⟩)
      have hvi := hmapI i hi
      rw [hget] at hvi
      have h2 := hmapv.symm.trans hvi
      injection h2 with h3
      omega

/-- Witness for the amended C2 theorem on the concrete copy: surviving
copy values `[0, 3, 5, 3]`, complement values `[5, 3, 7]`; the
intersection is `{3, 5}`, renumbered `3 ↦ 1`, `5 ↦ 2`, with `0 ↦ 0`. -/
theorem C2_copy_renumber_amended_witness :
    (∀ v ∈ ([0, 3, 5, 3] : List Nat), v = 0 ∨ v ∈ ([5, 3, 7] : List Nat)) ∧
    ¬((0 : Nat) ∈ ([0, 3, 5, 3] : List Nat) ∧
      (0 : Nat) ∈ ([5, 3, 7] : List Nat)) ∧
    (∃ compOut newOut,
      copy_renumber [0, 3, 5, 3] [5, 3, 7] = some (compOut, newOut) ∧
      (∀ v, v ∈ keptTxIds [0, 3, 5, 3] [5, 3, 7] ↔
        v ∈ intersect1d [0, 3, 5, 3] [5, 3, 7]) ∧
      valueMap (renumberKeys [0, 3, 5, 3] [5, 3, 7]) 0 = some 0 ∧
      (∀ (i : Nat) (hi : i < (intersect1d [0, 3, 5, 3] [5, 3, 7]).length),
        valueMap (renumberKeys [0, 3, 5, 3] [5, 3, 7])
          ((intersect1d [0, 3, 5, 3] [5, 3, 7]).get ⟨i, hi⟩) = some (i + 1)) ∧
      (∀ y, y ∈ compOut ↔
        1 ≤ y ∧ y ≤ (intersect1d [0, 3, 5, 3] [5, 3, 7]).length) ∧
      (∀ y ∈ newOut, y ≤ (intersect1d [0, 3, 5, 3] [5, 3, 7]).length)) :=
  ⟨by decide, by decide,
   C2_copy_renumber_amended [0, 3, 5, 3] [5, 3, 7] (by decide) (by decide)⟩

end Geoh5
